import Mathlib

/-!
Verification of the maintenance-forecast engine (`RevisaoCore` and its helper
functions in `revisao.py`).

Modelling conventions for the shallow embedding:

* Python strings are Lean `String`s; the string methods used by the source
  (`upper`, `replace` with one- and two-character patterns, `strip`) are
  re-implemented character-wise below, restricted to ASCII, which covers the
  plate / status data the engine manipulates.
* Dates are day numbers (`Int`): `timedelta(days = n)` is `+ n` and
  `(a - b).days` is `a - b`.  Spreadsheet cells that may be `NaT` / missing
  are `Option Int`.
* Floating point cells (odometer readings, costs) are modelled as `ℚ`; the
  engine only adds, subtracts, compares and takes minima of these values, so
  the embedding is exact.  `math.nan` results are modelled as `none`.
* A pandas cell that may be missing (`NaN` / `NaT` / `None`) is an `Option`.
* The input of the engine is a `Snapshot`: the four already-loaded sources
  (roster `resp`, maintenance log `rev`, intake log `cad`, fuel log `ext`)
  after the column-discovery step, i.e. one record per spreadsheet row with
  the semantic fields the engine reads, plus the injected current date
  `hoje`.  Attribute columns that the projection merely copies into the
  output (responsible party, unit, region, make, model, model year, workshop
  and the renewal flags derived from the model year) are omitted from the
  embedded rows: they do not influence any verified property and their
  merge keeps one record per plate, so they do not change row multiplicity.
-/

/-! ## Python string primitives -/

/-- Python `str.upper` on one ASCII character (the `ord - 32` shift on
`a`..`z`, everything else unchanged). -/
def pyUpperChar (c : Char) : Char :=
  if 97 ≤ c.toNat ∧ c.toNat ≤ 122 then Char.ofNat (c.toNat - 32) else c

/-- Characters removed by Python `str.strip()` (whitespace). -/
def pyIsSpace (c : Char) : Bool :=
  c == ' ' || c == '\t' || c == '\n' || c == '\r' || c == '\x0b' || c == '\x0c'

/-- Python `str.strip()`: drop whitespace from both ends. -/
def pyStrip (l : List Char) : List Char :=
  ((l.dropWhile pyIsSpace).reverse.dropWhile pyIsSpace).reverse

/-- Python `s.replace(c, "")` for a one-character pattern: remove every
occurrence of the character. -/
def pyRemoveChar (c : Char) (l : List Char) : List Char :=
  l.filter (fun a => !(a == c))

/-- Python `s.replace("R$", "")`: remove every (left-to-right,
non-overlapping) occurrence of the two-character substring. -/
def pyRemoveRS : List Char → List Char
  | [] => []
  | 'R' :: '$' :: rest => pyRemoveRS rest
  | c :: rest => c :: pyRemoveRS rest

/-- Python `s.replace(",", ".")`. -/
def pyCommaToDot (l : List Char) : List Char :=
  l.map (fun c => if c == ',' then '.' else c)

/-! ## `_norm_placa` (revisao.py lines 27-30)

`_norm_placa` returns `""` for a non-string cell, otherwise
`s.upper().replace("-", "").replace(" ", "").strip()`.  A raw plate cell is
therefore an `Option String` (`none` = missing / non-string value). -/

def normPlaca : Option String → String
  | none => ""
  | some s => ⟨pyStrip (pyRemoveChar ' ' (pyRemoveChar '-' (s.data.map pyUpperChar)))⟩

/-! ## `_to_date` (revisao.py lines 32-41)

The cell is either missing (`pd.isna`), an already-typed date(/datetime,
whose `.date()` part we store directly), or free text handed to
`pd.to_datetime(x, dayfirst=True, errors="coerce")`, which yields `None`
when unparseable.  The pandas parser itself is a library call; it is
modelled here by a day-first `d/m/y` digit parser mapped injectively to a
day number, which preserves the only facts the specification claims about
`_to_date`: it is total and unparseable text yields "no date". -/

inductive DateInput where
  | na : DateInput
  | dateVal : Int → DateInput
  | raw : String → DateInput
deriving DecidableEq

/-- All-digit string to its numeric value. -/
def digitsVal (l : List Char) : Option Nat :=
  if l ≠ [] ∧ l.all Char.isDigit then
    some (l.foldl (fun a c => a * 10 + (c.toNat - 48)) 0)
  else none

/-- Split a list at the first occurrence of a separator character:
returns the prefix part and, when the separator occurs, the remainder. -/
def splitFirst (sep : Char) : List Char → List Char × Option (List Char)
  | [] => ([], none)
  | c :: rest =>
    if c == sep then ([], some rest)
    else
      let r := splitFirst sep rest
      (c :: r.1, r.2)

/-- Day-first date parser standing in for `pd.to_datetime(_, dayfirst=True,
errors="coerce")`: accepts `d/m/y` with all-digit components and plausible
day and month ranges, returns an injective day-number encoding. -/
def parseDateBR (s : String) : Option Int :=
  match splitFirst '/' s.data with
  | (dpart, some rest) =>
    match splitFirst '/' rest with
    | (mpart, some ypart) =>
      match digitsVal dpart, digitsVal mpart, digitsVal ypart with
      | some d, some m, some y =>
        if 1 ≤ d ∧ d ≤ 31 ∧ 1 ≤ m ∧ m ≤ 12 then
          some ((y : Int) * 372 + (m : Int) * 31 + (d : Int))
        else none
      | _, _, _ => none
    | (_, none) => none
  | (_, none) => none

def toDate : DateInput → Option Int
  | DateInput.na => none
  | DateInput.dateVal d => some d
  | DateInput.raw s => parseDateBR s

/-! ## `_to_num` (revisao.py lines 43-52)

`_to_num` returns `math.nan` (modelled `none`) for a missing cell or any
failure; for a string it evaluates
`float(x.replace(".", "").replace(" ", "").replace("R$", "").replace(",", "."))`
and for any other value `float(x)`.  Python `float()` on a string is
modelled by an exact decimal-literal parser over `ℚ` (optional sign,
digits, optional fraction, optional exponent). -/

inductive NumInput where
  | na : NumInput
  | str : String → NumInput
  | num : ℚ → NumInput
deriving DecidableEq

/-- Mantissa without sign, as a pair (digits value, number of fractional
digits): `digits`, `digits.digits`, `.digits` or `digits.` (at least one
digit overall), exactly the shapes Python `float` accepts.  The denoted
value is `mant / 10 ^ scale`. -/
def parseMantissaParts (l : List Char) : Option (Nat × Nat) :=
  match splitFirst '.' l with
  | (ip, none) => (digitsVal ip).map (fun n => (n, 0))
  | (ip, some fp) =>
    if (ip ≠ [] ∨ fp ≠ []) ∧ ip.all Char.isDigit ∧ fp.all Char.isDigit then
      some ((ip.foldl (fun a c => a * 10 + (c.toNat - 48)) 0) * 10 ^ fp.length
          + fp.foldl (fun a c => a * 10 + (c.toNat - 48)) 0, fp.length)
    else none

/-- Optionally signed integer (for the exponent part). -/
def parseSignedNat (l : List Char) : Option Int :=
  match l with
  | '+' :: rest => (digitsVal rest).map (fun n => (n : Int))
  | '-' :: rest => (digitsVal rest).map (fun n => -(n : Int))
  | _ => (digitsVal l).map (fun n => (n : Int))

/-- Unsigned Python float literal: mantissa with optional `e`/`E` exponent,
returned as (mantissa, net decimal exponent); the denoted value is
`mant * 10 ^ k`. -/
def parseUnsignedParts (l : List Char) : Option (Nat × Int) :=
  let s1 := splitFirst 'e' l
  match s1.2 with
  | some ex =>
    (parseMantissaParts s1.1).bind (fun m =>
      (parseSignedNat ex).map (fun e => (m.1, e - (m.2 : Int))))
  | none =>
    let s2 := splitFirst 'E' l
    match s2.2 with
    | some ex =>
      (parseMantissaParts s2.1).bind (fun m =>
        (parseSignedNat ex).map (fun e => (m.1, e - (m.2 : Int))))
    | none => (parseMantissaParts l).map (fun m => (m.1, -(m.2 : Int)))

/-- The exact rational `± mant * 10 ^ k`. -/
def ratOfParts (neg : Bool) (mant : Nat) (k : Int) : ℚ :=
  let n : Int := if neg then -(mant : Int) else (mant : Int)
  if 0 ≤ k then mkRat (n * (10 : Int) ^ k.toNat) 1
  else mkRat n ((10 : Nat) ^ (-k).toNat)

/-- Python `float(s)` for the decimal forms (the `inf` / `nan` words and
digit underscores are not modelled; none of them can reach a parse success
from the numeric spreadsheet cells at issue). -/
def parsePyFloat (l : List Char) : Option ℚ :=
  match l with
  | '+' :: rest => (parseUnsignedParts rest).map (fun m => ratOfParts false m.1 m.2)
  | '-' :: rest => (parseUnsignedParts rest).map (fun m => ratOfParts true m.1 m.2)
  | _ => (parseUnsignedParts l).map (fun m => ratOfParts false m.1 m.2)

/-- The string preprocessing inside `_to_num`:
`x.replace(".", "").replace(" ", "").replace("R$", "").replace(",", ".")`. -/
def numTransform (s : String) : List Char :=
  pyCommaToDot (pyRemoveRS (pyRemoveChar ' ' (pyRemoveChar '.' s.data)))

def toNum : NumInput → Option ℚ
  | NumInput.na => none
  | NumInput.str s => parsePyFloat (numTransform s)
  | NumInput.num q => some q

/-! ## Status normalisation and the active-fleet filter
(revisao.py lines 23, 227-228, 237-245)

`status_norm_any` is `str(cell).upper().strip()` when a status column
exists and `""` otherwise; a missing cell is modelled as `none` and mapped
to `""` (like the missing column, it never matches the exclusion set, which
is all that the engine reads from it). -/

def IGNORAR_STATUS : List String := ["VENDIDO", "SAIU DA FROTA", "BAIXADO", "BAIXA"]

def statusNormAny : Option String → String
  | none => ""
  | some s => ⟨pyStrip (s.data.map pyUpperChar)⟩

/-- Whether a record is dropped by `_apply_status_filters`. -/
def excluded (st : Option String) : Bool :=
  IGNORAR_STATUS.contains (statusNormAny st)

/-! ## Status classification (revisao.py lines 398-404) -/

/-- Python `x is not None and x < b` for an optional integer. -/
def ltInt? (x : Option Int) (b : Int) : Bool :=
  match x with
  | some v => decide (v < b)
  | none => false

/-- Python `x is not None and x < b` for an optional rational. -/
def ltRat? (x : Option ℚ) (b : ℚ) : Bool :=
  match x with
  | some v => decide (v < b)
  | none => false

/-- The status assignment of `_build_previsao`: start from
`"Desconhecido"`; when at least one remainder is known, first match among
overdue (`< 0`), attention (`< 30` days or `< 1000` km) and on-track. -/
def classify (diasFalt : Option Int) (kmFalt : Option ℚ) : String :=
  if diasFalt.isNone && kmFalt.isNone then "Desconhecido"
  else if ltInt? diasFalt 0 || ltRat? kmFalt 0 then "Vencido"
  else if ltInt? diasFalt 30 || ltRat? kmFalt 1000 then "Atenção"
  else "Em dia"

/-! ## The four sources and the snapshot -/

/-- One roster (`resp`) row: plate cell and status cell. -/
structure RespRec where
  placa : Option String
  status : Option String
deriving DecidableEq

/-- One maintenance-log (`rev`) row: plate cell and service date
(`data_rev`, already normalised by `_to_date`). -/
structure RevRec where
  placa : Option String
  data : Option Int
deriving DecidableEq

/-- One intake-log (`cad`) row: plate cell, status cell and fleet-entry
date (`data_inicio`). -/
structure CadRec where
  placa : Option String
  status : Option String
  dataIni : Option Int
deriving DecidableEq

/-- One fuel-log (`ext`) row: plate cell, transaction date (`data_abast`)
and odometer reading (`km_abast`). -/
structure ExtRec where
  placa : Option String
  data : Option Int
  km : Option ℚ
deriving DecidableEq

/-- The four loaded sources after column discovery, plus the injected
current date `hoje`. -/
structure Snapshot where
  resp : List RespRec
  rev : List RevRec
  cad : List CadRec
  ext : List ExtRec
  hoje : Int
deriving DecidableEq

/-- Roster after `_apply_status_filters`. -/
def respF (s : Snapshot) : List RespRec :=
  s.resp.filter (fun r => !(excluded r.status))

/-- Intake log after `_apply_status_filters` (the maintenance and fuel
sources are not filtered). -/
def cadF (s : Snapshot) : List CadRec :=
  s.cad.filter (fun c => !(excluded c.status))

/-! ## Derived tables -/

/-- Model of `_build_km_abastecimentos`: fuel rows with a present transaction date,
keyed by normalised plate. -/
structure ExtClean where
  placa : String
  data : Int
  km : Option ℚ
deriving DecidableEq

def buildKmAbast (ext : List ExtRec) : List ExtClean :=
  ext.filterMap (fun e =>
    match e.data with
    | some d => some ⟨normPlaca e.placa, d, e.km⟩
    | none => none)

/-- Model of `_build_ultima_revisao_por_placa`, restricted to the one column the
projection reads (`data_ult_rev`): the maintenance log is sorted ascending
by service date and `groupby(placa).last()` keeps the last non-null date of
each plate group, i.e. the maximum non-null service date.  `none` covers
both a plate absent from the log and a plate whose rows all lack a date
(both merge to `NaT`, and the projection only tests `pd.notna`). -/
def dataUltRev (rev : List RevRec) (p : String) : Option Int :=
  ((rev.filter (fun r => normPlaca r.placa == p)).filterMap (fun r => r.data)).foldl
    (fun acc d =>
      match acc with
      | none => some d
      | some m => some (max m d)) none

/-- Row of maximal date (`sort_values("data_abast"); iloc[-1]`): the fold
keeps the later of equal dates, matching the last row of a stable ascending
sort.  Returns `none` on an empty selection (`return None, None`). -/
def lastByDate (l : List ExtClean) : Option (Option ℚ × Int) :=
  l.foldl
    (fun acc e =>
      match acc with
      | none => some (e.km, e.data)
      | some (k, d) => if d ≤ e.data then some (e.km, e.data) else some (k, d)) none

/-- Row of minimal `abs((data - ref).days)`
(`sort_values("delta"); iloc[0]`): the fold keeps the earlier of equal
deltas, matching the first row of a stable ascending sort. -/
def closestByDelta (ref : Int) (l : List ExtClean) : Option (Option ℚ × Int) :=
  l.foldl
    (fun acc e =>
      match acc with
      | none => some (e.km, e.data)
      | some (k, d) =>
        if (e.data - ref).natAbs < (d - ref).natAbs then some (e.km, e.data)
        else some (k, d)) none

/-- Model of `_closest_refuel_to` on the cleaned fuel table. -/
def closestRefuelTo (kmAb : List ExtClean) (p : String) (dataRef : Option Int) :
    Option (Option ℚ × Int) :=
  let d := kmAb.filter (fun e => e.placa == p)
  match dataRef with
  | none => lastByDate d
  | some ref => closestByDelta ref d

/-- Model of `_last_refuel_km` on the cleaned fuel table. -/
def lastRefuelKm (kmAb : List ExtClean) (p : String) : Option (Option ℚ × Int) :=
  lastByDate (kmAb.filter (fun e => e.placa == p))

/-! ## `_build_previsao` (revisao.py lines 312-455) -/

/-- One output row, restricted to the fields the verified properties
mention. -/
structure Row where
  placa : String
  dataBase : Option Int
  proxData : Option Int
  diasFalt : Option Int
  kmBase : Option ℚ
  kmMeta : Option ℚ
  kmUltimo : Option ℚ
  kmFalt : Option ℚ
  status : String
deriving DecidableEq

/-- The `km_base` / `km_meta` pair: when a last service date exists, the
nearest refuel supplies the baseline odometer (`None` when the lookup
finds no row or the reading itself is missing); otherwise the zero / 10000
fallback applies. -/
def kmPair (s : Snapshot) (p : String) : Option ℚ × Option ℚ :=
  match dataUltRev s.rev p with
  | some dref =>
    match closestRefuelTo (buildKmAbast s.ext) p (some dref) with
    | some (k, _) => (k, k.map (fun q => q + 10000))
    | none => (none, none)
  | none => (some 0, some 10000)

/-- The `km_faltando` computation: `km_meta - km_ultimo` when both exist,
the full `km_meta` when the plate has no fuel rows at all, and `None`
otherwise (including a fuel row whose reading is `NaN`). -/
def kmFaltOf (kmMeta : Option ℚ) (lastR : Option (Option ℚ × Int)) : Option ℚ :=
  match kmMeta, lastR with
  | some m, some (some u, _) => some (m - u)
  | some m, none => some m
  | _, _ => none

/-- One output row of the per-plate loop of `_build_previsao`, for plate
`p` and the intake date `di` contributed by one merged intake row. -/
def mkRow (s : Snapshot) (p : String) (di : Option Int) : Row :=
  let dataUlt := dataUltRev s.rev p
  let dataBase := dataUlt.orElse (fun _ => di)
  let proxData := dataBase.map (fun d => d + 365)
  let diasFalt := proxData.map (fun d => d - s.hoje)
  let km := kmPair s p
  let lastR := lastRefuelKm (buildKmAbast s.ext) p
  let kmFalt := kmFaltOf km.2 lastR
  { placa := p
    dataBase := dataBase
    proxData := proxData
    diasFalt := diasFalt
    kmBase := km.1
    kmMeta := km.2
    kmUltimo := lastR.bind (fun x => x.1)
    kmFalt := kmFalt
    status := classify diasFalt kmFalt }

/-- The normalised plates contributed by the four sources, in source order
(roster and intake after the status filter, exactly the frames concatenated
by `_build_previsao`). -/
def sourcePlates (s : Snapshot) : List String :=
  (respF s).map (fun r => normPlaca r.placa)
    ++ s.rev.map (fun r => normPlaca r.placa)
    ++ (cadF s).map (fun c => normPlaca c.placa)
    ++ s.ext.map (fun e => normPlaca e.placa)

/-- Pandas `drop_duplicates` keeping the first occurrence (structural accumulator
formulation: an element is kept exactly when it has not been seen before). -/
def dedupFirstAux (seen : List String) : List String → List String
  | [] => []
  | x :: xs => if x ∈ seen then dedupFirstAux seen xs else x :: dedupFirstAux (x :: seen) xs

def dedupFirst (l : List String) : List String := dedupFirstAux [] l

/-- The plate universe: concatenated plates, de-duplicated, empty
normalised plates removed. -/
def placas (s : Snapshot) : List String :=
  (dedupFirst (sourcePlates s)).filter (fun q => !(q == ""))

/-- The intake dates merged onto plate `p`: the left merge against the
(unaggregated) intake table yields one copy of the base row per matching
intake record, or a single row with a missing date when none matches. -/
def dataIniList (cadf : List CadRec) (p : String) : List (Option Int) :=
  let m := (cadf.filter (fun c => normPlaca c.placa == p)).map (fun c => c.dataIni)
  if m.isEmpty then [none] else m

/-- All output rows generated for plate `p`. -/
def rowsFor (s : Snapshot) (p : String) : List Row :=
  (dataIniList (cadF s) p).map (mkRow s p)

def concatAll : List (List Row) → List Row
  | [] => []
  | l :: ls => l ++ concatAll ls

/-- The unsorted output rows, one block per plate of the universe. -/
def rawRows (s : Snapshot) : List Row :=
  concatAll ((placas s).map (rowsFor s))

/-- The sort key of `_build_previsao`: `min` of the two remainders with a
missing remainder replaced by `9e9`. -/
def ordKey (r : Row) : ℚ :=
  min ((r.diasFalt.map (fun d => (d : ℚ))).getD 9000000000)
    (r.kmFalt.getD 9000000000)

/-- Insertion into a list kept ascending by `ordKey`. -/
def insertSorted (x : Row) : List Row → List Row
  | [] => [x]
  | y :: ys => if ordKey x ≤ ordKey y then x :: y :: ys else y :: insertSorted x ys

/-- Ascending sort by `ordKey`, modelling `sort_values("ord")` (any
correct sort realises the sortedness property; pandas leaves the order of
equal keys unspecified). -/
def sortRows : List Row → List Row
  | [] => []
  | x :: xs => insertSorted x (sortRows xs)

/-- The full projection: the per-plate rows sorted by the urgency key. -/
def buildPrevisao (s : Snapshot) : List Row :=
  sortRows (rawRows s)

/-! ## Urgency order and distance-criterion predicate (used to state the
monotonic-urgency property) -/

/-- Urgency order on statuses: overdue above attention above on-track,
with unknown at the bottom. -/
def urgency (st : String) : Nat :=
  if st = "Vencido" then 3
  else if st = "Atenção" then 2
  else if st = "Em dia" then 1
  else 0

/-- The row does not trigger the distance criterion: no distance remainder,
or a remainder of at least the 1000 attention threshold (hence also not
negative). -/
def distCalmB (k : Option ℚ) : Bool :=
  match k with
  | none => true
  | some q => decide (1000 ≤ q)

/-! ## Concrete snapshots used as witnesses and counterexamples -/

/-- Intake log with two records for the same plate, no other sources. -/
def exDup : Snapshot :=
  ⟨[], [], [⟨some "AAA1111", none, some 100⟩, ⟨some "AAA1111", none, some 200⟩], [], 0⟩

/-- A plate marked `VENDIDO` in both roster and intake, but also present in
the fuel log. -/
def exSold : Snapshot :=
  ⟨[⟨some "BBB2222", some "VENDIDO"⟩], [], [⟨some "BBB2222", some "VENDIDO", some 5⟩],
    [⟨some "BBB2222", some 10, some 50⟩], 0⟩

/-- A plate with a dated maintenance entry but no fuel history at all. -/
def exRevNoFuel : Snapshot :=
  ⟨[], [⟨some "CCC3333", some 100⟩], [⟨some "CCC3333", none, some 50⟩], [], 0⟩

/-- A single intake record, no maintenance or fuel history. -/
def exOne : Snapshot := ⟨[], [], [⟨some "AAA1111", none, some 100⟩], [], 0⟩

/-- Two plates with intake dates giving one overdue and one on-track row. -/
def exTwo : Snapshot :=
  ⟨[], [], [⟨some "GGG7777", none, some (-400)⟩, ⟨some "HHH8888", none, some 0⟩], [], 0⟩

/-- A roster plate excluded by status and absent from every other source,
next to an unrelated intake plate. -/
def exClean : Snapshot :=
  ⟨[⟨some "DDD4444", some " vendido "⟩], [], [⟨some "EEE5555", none, none⟩], [], 0⟩

/-- The single output row of `exOne`. -/
def rowOne : Row :=
  ⟨"AAA1111", some 100, some 465, some 465, some 0, some 10000, none, some 10000, "Em dia"⟩

/-- The overdue output row of `exTwo`. -/
def rowG : Row :=
  ⟨"GGG7777", some (-400), some (-35), some (-35), some 0, some 10000, none, some 10000,
    "Vencido"⟩

/-- The on-track output row of `exTwo`. -/
def rowH : Row :=
  ⟨"HHH8888", some 0, some 365, some 365, some 0, some 10000, none, some 10000, "Em dia"⟩

/-- The single output row of `exClean`. -/
def rowClean : Row :=
  ⟨"EEE5555", none, none, none, some 0, some 10000, none, some 10000, "Em dia"⟩

/-! ## Structural lemmas about the projection -/

theorem perm_insertSorted (x : Row) (l : List Row) : (insertSorted x l).Perm (x :: l) := by
  induction l with
  | nil => simp [insertSorted]
  | cons y ys ih =>
    unfold insertSorted
    by_cases h : ordKey x ≤ ordKey y
    · simp [h]
    · simp only [h, if_false]
      exact ((ih.cons y).trans (List.Perm.swap x y ys))

theorem perm_sortRows (l : List Row) : (sortRows l).Perm l := by
  induction l with
  | nil => simp [sortRows]
  | cons x xs ih =>
    unfold sortRows
    exact (perm_insertSorted x (sortRows xs)).trans (ih.cons x)

theorem sorted_insertSorted (x : Row) (l : List Row)
    (h : l.Pairwise (fun a b => ordKey a ≤ ordKey b)) :
    (insertSorted x l).Pairwise (fun a b => ordKey a ≤ ordKey b) := by
  induction l with
  | nil => simp [insertSorted]
  | cons y ys ih =>
    unfold insertSorted
    rcases List.pairwise_cons.mp h with ⟨hy, hys⟩
    by_cases hxy : ordKey x ≤ ordKey y
    · simp only [hxy, if_true]
      refine List.pairwise_cons.mpr ⟨?_, h⟩
      intro z hz
      rcases List.mem_cons.mp hz with hz | hz
      · exact hz ▸ hxy
      · exact le_trans hxy (hy z hz)
    · simp only [hxy, if_false]
      refine List.pairwise_cons.mpr ⟨?_, ih hys⟩
      intro z hz
      have hz' : z ∈ x :: ys := (perm_insertSorted x ys).mem_iff.mp hz
      rcases List.mem_cons.mp hz' with hz' | hz'
      · exact hz' ▸ le_of_lt (lt_of_not_le hxy)
      · exact hy z hz'

theorem sorted_sortRows (l : List Row) :
    (sortRows l).Pairwise (fun a b => ordKey a ≤ ordKey b) := by
  induction l with
  | nil => simp [sortRows]
  | cons x xs ih => exact sorted_insertSorted x (sortRows xs) ih

theorem mem_concatAll {r : Row} {ls : List (List Row)} :
    r ∈ concatAll ls ↔ ∃ l ∈ ls, r ∈ l := by
  induction ls with
  | nil => simp [concatAll]
  | cons l ls ih => simp [concatAll, List.mem_append, ih]

theorem countP_concatAll (pb : Row → Bool) (ls : List (List Row)) :
    (concatAll ls).countP pb = (ls.map (fun l => l.countP pb)).sum := by
  induction ls with
  | nil => simp [concatAll]
  | cons l ls ih => simp [concatAll, List.countP_append, ih]

theorem mem_dedupFirstAux {a : String} :
    ∀ {l seen : List String}, a ∈ dedupFirstAux seen l ↔ a ∈ l ∧ a ∉ seen := by
  intro l
  induction l with
  | nil => simp [dedupFirstAux]
  | cons x xs ih =>
    intro seen
    unfold dedupFirstAux
    by_cases hx : x ∈ seen
    · rw [if_pos hx, ih]
      constructor
      · rintro ⟨h1, h2⟩
        exact ⟨List.mem_cons_of_mem x h1, h2⟩
      · rintro ⟨h1, h2⟩
        rcases List.mem_cons.mp h1 with rfl | h1
        · exact absurd hx h2
        · exact ⟨h1, h2⟩
    · rw [if_neg hx]
      simp only [List.mem_cons, ih]
      constructor
      · rintro (rfl | ⟨h1, h2⟩)
        · exact ⟨Or.inl rfl, hx⟩
        · exact ⟨Or.inr h1, fun hs => h2 (Or.inr hs)⟩
      · rintro ⟨rfl | h1, h2⟩
        · exact Or.inl rfl
        · by_cases hax : a = x
          · exact Or.inl hax
          · exact Or.inr ⟨h1, fun hs => by
              rcases hs with h | h
              · exact hax h
              · exact h2 h⟩

theorem nodup_dedupFirstAux :
    ∀ {l seen : List String}, (dedupFirstAux seen l).Nodup := by
  intro l
  induction l with
  | nil => simp [dedupFirstAux]
  | cons x xs ih =>
    intro seen
    unfold dedupFirstAux
    by_cases hx : x ∈ seen
    · rw [if_pos hx]
      exact ih
    · rw [if_neg hx]
      refine List.nodup_cons.mpr ⟨?_, ih⟩
      intro hmem
      exact (mem_dedupFirstAux.mp hmem).2 (List.mem_cons_self x seen)

theorem mem_dedupFirst {a : String} {l : List String} : a ∈ dedupFirst l ↔ a ∈ l := by
  unfold dedupFirst
  rw [mem_dedupFirstAux]
  simp

theorem nodup_dedupFirst {l : List String} : (dedupFirst l).Nodup :=
  nodup_dedupFirstAux

theorem mem_placas {s : Snapshot} {p : String} :
    p ∈ placas s ↔ p ∈ sourcePlates s ∧ p ≠ "" := by
  unfold placas
  rw [List.mem_filter, mem_dedupFirst]
  simp

theorem nodup_placas (s : Snapshot) : (placas s).Nodup :=
  List.Nodup.filter _ nodup_dedupFirst

theorem mkRow_placa (s : Snapshot) (p : String) (di : Option Int) :
    (mkRow s p di).placa = p := rfl

theorem mkRow_status (s : Snapshot) (p : String) (di : Option Int) :
    (mkRow s p di).status = classify (mkRow s p di).diasFalt (mkRow s p di).kmFalt := rfl

theorem mem_rawRows {s : Snapshot} {r : Row} :
    r ∈ rawRows s ↔ ∃ p ∈ placas s, ∃ di ∈ dataIniList (cadF s) p, r = mkRow s p di := by
  unfold rawRows rowsFor
  rw [mem_concatAll]
  constructor
  · rintro ⟨l, hl, hr⟩
    rcases List.mem_map.mp hl with ⟨p, hp, rfl⟩
    rcases List.mem_map.mp hr with ⟨di, hdi, rfl⟩
    exact ⟨p, hp, di, hdi, rfl⟩
  · rintro ⟨p, hp, di, hdi, rfl⟩
    exact ⟨(dataIniList (cadF s) p).map (mkRow s p), List.mem_map.mpr ⟨p, hp, rfl⟩,
      List.mem_map.mpr ⟨di, hdi, rfl⟩⟩

theorem mem_buildPrevisao {s : Snapshot} {r : Row} :
    r ∈ buildPrevisao s ↔ r ∈ rawRows s :=
  (perm_sortRows (rawRows s)).mem_iff

theorem countP_rowsFor (s : Snapshot) (p q : String) :
    (rowsFor s q).countP (fun r => r.placa == p)
      = if q = p then (dataIniList (cadF s) q).length else 0 := by
  unfold rowsFor
  rw [List.countP_map]
  have : ((fun r : Row => r.placa == p) ∘ mkRow s q) = fun _ => q == p := by
    funext di
    simp [Function.comp, mkRow_placa]
  rw [this]
  by_cases h : q = p
  · subst h
    simp [List.countP_eq_length_filter]
  · have : (q == p) = false := by simpa using h
    simp [this, h, List.countP_eq_length_filter]

theorem length_dataIniList_of_le_one {cadf : List CadRec} {p : String}
    (h : cadf.countP (fun c => normPlaca c.placa == p) ≤ 1) :
    (dataIniList cadf p).length = 1 := by
  unfold dataIniList
  rw [List.countP_eq_length_filter] at h
  by_cases he : ((cadf.filter (fun c => normPlaca c.placa == p)).map (fun c => c.dataIni)).isEmpty
  · simp [he]
  · rw [if_neg he, List.length_map]
    rw [List.isEmpty_iff] at he
    have hpos : 0 < (cadf.filter (fun c => normPlaca c.placa == p)).length := by
      rw [List.length_pos]
      intro hnil
      exact he (by simp [hnil])
    omega

theorem sum_map_zero {L : List String} {g : String → Nat} {p : String}
    (hp : p ∉ L) :
    (L.map (fun q => if q = p then g q else 0)).sum = 0 := by
  induction L with
  | nil => simp
  | cons x L ih =>
    have hx : x ≠ p := fun h => hp (h ▸ List.mem_cons_self x L)
    have hL : p ∉ L := fun h => hp (List.mem_cons_of_mem x h)
    simp [hx, ih hL]

theorem sum_map_single {L : List String} {g : String → Nat} {p : String}
    (hnd : L.Nodup) (hp : p ∈ L) :
    (L.map (fun q => if q = p then g q else 0)).sum = g p := by
  induction L with
  | nil => simp at hp
  | cons x L ih =>
    rcases List.nodup_cons.mp hnd with ⟨hx, hnd'⟩
    rcases List.mem_cons.mp hp with hp' | hp'
    · subst hp'
      simp [sum_map_zero hx]
    · have hxp : x ≠ p := fun h => hx (h ▸ hp')
      simp [hxp, ih hnd' hp']

/-! ## Classifier analysis -/

theorem classify_mem (d : Option Int) (k : Option ℚ) :
    classify d k = "Vencido" ∨ classify d k = "Atenção"
      ∨ classify d k = "Em dia" ∨ classify d k = "Desconhecido" := by
  unfold classify
  split_ifs <;> simp

theorem classify_eq_desconhecido (d : Option Int) (k : Option ℚ) :
    classify d k = "Desconhecido" ↔ d = none ∧ k = none := by
  unfold classify
  rcases d with _ | dv <;> rcases k with _ | kv <;> simp [ltInt?, ltRat?] <;> split_ifs <;> simp

theorem classify_known (d : Option Int) (k : Option ℚ) (h : ¬(d = none ∧ k = none)) :
    (classify d k = "Vencido" ↔ (ltInt? d 0 || ltRat? k 0) = true)
      ∧ (classify d k = "Atenção"
          ↔ (ltInt? d 0 || ltRat? k 0) = false ∧ (ltInt? d 30 || ltRat? k 1000) = true)
      ∧ (classify d k = "Em dia"
          ↔ (ltInt? d 0 || ltRat? k 0) = false ∧ (ltInt? d 30 || ltRat? k 1000) = false) := by
  have hnotu : (d.isNone && k.isNone) = false := by
    rcases d with _ | dv <;> rcases k with _ | kv <;> simp at h ⊢
  unfold classify
  rw [hnotu]
  simp only [Bool.false_eq_true, if_false]
  rcases hv : (ltInt? d 0 || ltRat? k 0) with _ | _
    <;> rcases ha : (ltInt? d 30 || ltRat? k 1000) with _ | _ <;> simp

theorem classify_days (dv : Int) (k : Option ℚ) (hk : distCalmB k = true) :
    classify (some dv) k
      = if dv < 0 then "Vencido" else if dv < 30 then "Atenção" else "Em dia" := by
  have hk0 : ltRat? k 0 = false := by
    rcases k with _ | q
    · rfl
    · simp [distCalmB] at hk
      simp [ltRat?]
      linarith
  have hk1000 : ltRat? k 1000 = false := by
    rcases k with _ | q
    · rfl
    · simp [distCalmB] at hk
      simp [ltRat?]
      linarith
  unfold classify
  simp [ltInt?, hk0, hk1000]

/-! ## Character-level helpers for the plate normaliser -/

theorem char_toNat_ofNat (n : Nat) (h : n < 55296) : (Char.ofNat n).toNat = n := by
  have hv : Nat.isValidChar n := Or.inl h
  simp [Char.ofNat, hv]
  rfl

theorem pyUpperChar_not_lower (a : Char) :
    ¬(97 ≤ (pyUpperChar a).toNat ∧ (pyUpperChar a).toNat ≤ 122) := by
  unfold pyUpperChar
  split_ifs with h
  · have hv : (Char.ofNat (a.toNat - 32)).toNat = a.toNat - 32 :=
      char_toNat_ofNat _ (by omega)
    rw [hv]
    omega
  · exact h

theorem mem_pyStrip {c : Char} {l : List Char} (h : c ∈ pyStrip l) : c ∈ l := by
  unfold pyStrip at h
  rw [List.mem_reverse] at h
  have h1 : c ∈ (l.dropWhile pyIsSpace).reverse := (List.dropWhile_sublist pyIsSpace).mem h
  rw [List.mem_reverse] at h1
  exact (List.dropWhile_sublist pyIsSpace).mem h1

/-! ## The claims -/

/-- Claim C1, counterexample: in `exSold` every roster and intake record of
plate `BBB2222` matches the exclusion set (status `VENDIDO`), yet the plate
appears as a row of the output projection, because the plate also occurs in
the fuel log and the status filter is applied only to the roster and intake
sources. -/
theorem c1_cex :
    (exSold.resp.all fun r => excluded r.status) = true
      ∧ (exSold.cad.all fun c => excluded c.status) = true
      ∧ (exSold.ext.map fun e => normPlaca e.placa) = ["BBB2222"]
      ∧ (buildPrevisao exSold).countP (fun r => r.placa == "BBB2222") = 1 := by
  decide

/-- Claim C1, amended: a record whose status matches the exclusion set is
dropped from the roster and intake sources before any further processing;
a plate whose every roster and intake occurrence is excluded appears in the
output only if it occurs in the maintenance or fuel log.  Formally: if all
roster and intake records of plate `p` are excluded and `p` occurs in
neither the maintenance log nor the fuel log, then no output row carries
plate `p`. -/
theorem c1_amended (s : Snapshot) (p : String)
    (hresp : ∀ r ∈ s.resp, normPlaca r.placa = p → excluded r.status = true)
    (hcad : ∀ c ∈ s.cad, normPlaca c.placa = p → excluded c.status = true)
    (hrev : ∀ r ∈ s.rev, normPlaca r.placa ≠ p)
    (hext : ∀ e ∈ s.ext, normPlaca e.placa ≠ p) :
    ∀ r ∈ buildPrevisao s, r.placa ≠ p := by
  intro r hr hcontra
  rcases mem_rawRows.mp (mem_buildPrevisao.mp hr) with ⟨q, hq, di, hdi, rfl⟩
  rw [mkRow_placa] at hcontra
  subst hcontra
  rcases mem_placas.mp hq with ⟨hsp, hne⟩
  unfold sourcePlates at hsp
  rcases List.mem_append.mp hsp with hsp | hsp
  rcases List.mem_append.mp hsp with hsp | hsp
  rcases List.mem_append.mp hsp with hsp | hsp
  · rcases List.mem_map.mp hsp with ⟨rec, hrec, heq⟩
    rcases List.mem_filter.mp hrec with ⟨hmem, hflt⟩
    have := hresp rec hmem heq
    simp [this] at hflt
  · rcases List.mem_map.mp hsp with ⟨rec, hrec, heq⟩
    exact hrev rec hrec heq
  · rcases List.mem_map.mp hsp with ⟨rec, hrec, heq⟩
    rcases List.mem_filter.mp hrec with ⟨hmem, hflt⟩
    have := hcad rec hmem heq
    simp [this] at hflt
  · rcases List.mem_map.mp hsp with ⟨rec, hrec, heq⟩
    exact hext rec hrec heq

/-- Claim C1, witness for the amended statement: in `exClean` the plate
`DDD4444` occurs only as an excluded roster record, and the output row (of
the unrelated plate) indeed does not carry it. -/
theorem c1_amended_witness : rowClean.placa ≠ "DDD4444" :=
  c1_amended exClean "DDD4444" (by decide) (by decide) (by decide) (by decide)
    rowClean (by decide)

/-- Claim C2, counterexample: in `exDup` the plate `AAA1111` appears in a
source (the intake log, twice), and the output projection contains two rows
for it, because the intake-date merge joins the unaggregated intake table.
-/
theorem c2_cex :
    "AAA1111" ∈ sourcePlates exDup
      ∧ (buildPrevisao exDup).countP (fun r => r.placa == "AAA1111") = 2 := by
  decide

/-- Claim C2, amended: every plate with a nonempty canonical form appearing
in at least one source after the status filter appears exactly once in the
output, provided the intake source is nonempty (with an empty intake frame
alongside a nonempty source the original code raises a KeyError instead of
producing output) and the filtered intake log holds at most one record for
that plate; a plate with several intake records yields one row per record.
-/
theorem c2_amended (s : Snapshot) (p : String)
    (_hcad : s.cad ≠ []) (hp : p ≠ "") (hmem : p ∈ sourcePlates s)
    (hone : (cadF s).countP (fun c => normPlaca c.placa == p) ≤ 1) :
    (buildPrevisao s).countP (fun r => r.placa == p) = 1 := by
  unfold buildPrevisao
  rw [(perm_sortRows (rawRows s)).countP_eq]
  unfold rawRows
  rw [countP_concatAll, List.map_map]
  have hfun : ((fun l : List Row => l.countP (fun r => r.placa == p)) ∘ rowsFor s)
      = fun q => if q = p then (dataIniList (cadF s) q).length else 0 :=
    funext fun q => countP_rowsFor s p q
  rw [hfun, sum_map_single (nodup_placas s) (mem_placas.mpr ⟨hmem, hp⟩),
    length_dataIniList_of_le_one hone]

/-- Claim C2, witness for the amended statement on the one-plate snapshot
`exOne`. -/
theorem c2_amended_witness :
    (buildPrevisao exOne).countP (fun r => r.placa == "AAA1111") = 1 :=
  c2_amended exOne "AAA1111" (by decide) (by decide) (by decide) (by decide)

/-- Claim C3, counterexample: in `exRevNoFuel` the plate has a dated
maintenance entry but no fuel rows, so the nearest-refuel lookup fails and
the single output row carries `km_meta = None` — the projected next-due
odometer is not always defined. -/
theorem c3_cex :
    (buildPrevisao exRevNoFuel).length = 1
      ∧ (buildPrevisao exRevNoFuel).countP
          (fun r => r.placa == "CCC3333" && r.kmMeta.isNone) = 1 := by
  decide

/-- Claim C3, amended: the zero baseline-odometer fallback applies only
when the plate has no maintenance service date — then `km_base = 0` and
`km_meta = 10000` are always defined, and with no fuel rows at all the
distance shortfall equals `km_meta`; when a service date exists, `km_meta`
is the nearest-refuel reading plus 10000 and is undefined whenever that
lookup yields no reading. -/
theorem c3_amended (s : Snapshot) (r : Row) (hr : r ∈ buildPrevisao s) :
    (dataUltRev s.rev r.placa = none → r.kmBase = some 0 ∧ r.kmMeta = some 10000)
      ∧ (∀ dref, dataUltRev s.rev r.placa = some dref →
          r.kmMeta = (closestRefuelTo (buildKmAbast s.ext) r.placa (some dref)).bind
            (fun x => x.1.map (fun q => q + 10000)))
      ∧ (lastRefuelKm (buildKmAbast s.ext) r.placa = none → r.kmFalt = r.kmMeta) := by
  rcases mem_rawRows.mp (mem_buildPrevisao.mp hr) with ⟨p, hp, di, hdi, rfl⟩
  simp only [mkRow_placa]
  refine ⟨?_, ?_, ?_⟩
  · intro h
    constructor <;> simp [mkRow, kmPair, h]
  · intro dref h
    simp only [mkRow, kmPair, h]
    cases hc : closestRefuelTo (buildKmAbast s.ext) p (some dref) with
    | none => simp
    | some x => cases x with | mk k d => simp
  · intro h
    simp only [mkRow, h, kmFaltOf]
    cases hm : (kmPair s p).2 with
    | none => simp
    | some m => simp

/-- Claim C3, witness for the amended statement: the `exOne` row has no
maintenance date and no fuel rows, so its baseline odometer is zero, its
target is 10000 and its shortfall equals the target. -/
theorem c3_amended_witness :
    rowOne.kmBase = some 0 ∧ rowOne.kmMeta = some 10000 ∧ rowOne.kmFalt = rowOne.kmMeta := by
  have h := c3_amended exOne rowOne (by decide)
  exact ⟨(h.1 (by decide)).1, (h.1 (by decide)).2, h.2.2 (by decide)⟩

/-- Claim C4: for every projection row, the status is total over overdue /
attention / on-track / unknown; it is unknown exactly when both remainders
are missing; and otherwise it follows the first-match order — overdue when
a remainder is negative, else attention when the days remainder is below 30
or the distance remainder below 1000, else on-track. -/
theorem c4_status_totality (s : Snapshot) (r : Row) (hr : r ∈ buildPrevisao s) :
    (r.status = "Vencido" ∨ r.status = "Atenção" ∨ r.status = "Em dia"
        ∨ r.status = "Desconhecido")
      ∧ (r.status = "Desconhecido" ↔ r.diasFalt = none ∧ r.kmFalt = none)
      ∧ (¬(r.diasFalt = none ∧ r.kmFalt = none) →
          (r.status = "Vencido" ↔ (ltInt? r.diasFalt 0 || ltRat? r.kmFalt 0) = true)
            ∧ (r.status = "Atenção"
                ↔ (ltInt? r.diasFalt 0 || ltRat? r.kmFalt 0) = false
                  ∧ (ltInt? r.diasFalt 30 || ltRat? r.kmFalt 1000) = true)
            ∧ (r.status = "Em dia"
                ↔ (ltInt? r.diasFalt 0 || ltRat? r.kmFalt 0) = false
                  ∧ (ltInt? r.diasFalt 30 || ltRat? r.kmFalt 1000) = false)) := by
  have hs : r.status = classify r.diasFalt r.kmFalt := by
    rcases mem_rawRows.mp (mem_buildPrevisao.mp hr) with ⟨p, hp, di, hdi, rfl⟩
    rfl
  rw [hs]
  exact ⟨classify_mem _ _, classify_eq_desconhecido _ _, fun h => classify_known _ _ h⟩

/-- Claim C4, witness on the `exOne` row (both remainders known, on
track). -/
theorem c4_status_totality_witness :
    rowOne.status = "Vencido" ∨ rowOne.status = "Atenção" ∨ rowOne.status = "Em dia"
      ∨ rowOne.status = "Desconhecido" :=
  (c4_status_totality exOne rowOne (by decide)).1

/-- Claim C5, counterexample: the canonicaliser keeps the dot of
`"ab.c-123"`, so the canonical form is not made of letters and digits only
— only hyphens and spaces are stripped, not all non-alphanumeric
characters. -/
theorem c5_cex :
    normPlaca (some "ab.c-123") = "AB.C123"
      ∧ ((normPlaca (some "ab.c-123")).data.all Char.isAlphanum) = false := by
  decide

/-- Claim C5, amended: plate canonicalisation upper-cases ASCII letters and
strips hyphens, spaces and surrounding whitespace — every character of the
canonical form is neither a hyphen, nor a space, nor a lower-case ASCII
letter — but other non-alphanumeric characters are retained (see the
counterexample); two plates denote the same vehicle exactly when these
canonical forms agree. -/
theorem c5_amended (s : String) :
    ∀ c ∈ (normPlaca (some s)).data,
      c ≠ '-' ∧ c ≠ ' ' ∧ ¬(97 ≤ c.toNat ∧ c.toNat ≤ 122) := by
  intro c hc
  have h1 : c ∈ pyRemoveChar ' ' (pyRemoveChar '-' (s.data.map pyUpperChar)) :=
    mem_pyStrip hc
  rcases List.mem_filter.mp h1 with ⟨h2, hsp⟩
  rcases List.mem_filter.mp h2 with ⟨h3, hhy⟩
  rcases List.mem_map.mp h3 with ⟨a, _, rfl⟩
  refine ⟨?_, ?_, pyUpperChar_not_lower a⟩
  · intro h
    rw [h] at hhy
    simp at hhy
  · intro h
    rw [h] at hsp
    simp at hsp

/-- Claim C5, witness for the amended statement at a concrete character of
a concrete canonical form. -/
theorem c5_amended_witness :
    'A' ≠ '-' ∧ 'A' ≠ ' ' ∧ ¬(97 ≤ 'A'.toNat ∧ 'A'.toNat ≤ 122) :=
  c5_amended "ab.c-123" 'A' (by decide)

/-- Claim C6, counterexample: the dot-decimal string `"1,234.56"` parses to
`1.23456`, not `1234.56` — the parser does not detect which separator
appears last; it always removes dots and takes the comma as the decimal
point. -/
theorem c6_cex :
    toNum (NumInput.str "1,234.56") = some (mkRat 123456 100000)
      ∧ toNum (NumInput.str "1,234.56") ≠ some (mkRat 123456 100) := by
  constructor
  · decide
  · decide

/-- Claim C6, amended: the numeric normaliser removes dots, spaces and the
`R$` currency marker and then takes the comma as the decimal separator:
the parse result never depends on the dots of the input (they are always
treated as thousands separators), comma-decimal strings parse exactly, and
non-numeric input yields "no value" (`NaN`), not zero. -/
theorem c6_amended :
    (∀ s : String,
        toNum (NumInput.str s)
          = toNum (NumInput.str ⟨s.data.filter (fun c => !(c == '.'))⟩))
      ∧ toNum (NumInput.str "1.234,56") = some (mkRat 123456 100)
      ∧ toNum (NumInput.str "R$ 12,50") = some (mkRat 25 2)
      ∧ toNum NumInput.na = none
      ∧ toNum (NumInput.str "abc") = none := by
  refine ⟨?_, by decide, by decide, rfl, by decide⟩
  intro s
  show parsePyFloat (numTransform s) = parsePyFloat (numTransform _)
  unfold numTransform
  congr 1
  show pyCommaToDot _ = pyCommaToDot _
  congr 1
  show pyRemoveRS _ = pyRemoveRS _
  congr 1
  show pyRemoveChar ' ' _ = pyRemoveChar ' ' _
  congr 1
  unfold pyRemoveChar
  show List.filter _ s.data = List.filter _ (List.filter _ s.data)
  rw [List.filter_filter]
  simp

/-- Claim C7: among projection rows with known days remainders neither of
which triggers the distance criterion, a strictly smaller days remainder
yields an at-least-as-urgent status (overdue above attention above
on-track). -/
theorem c7_monotonic_urgency (s : Snapshot) (a b : Row)
    (ha : a ∈ buildPrevisao s) (hb : b ∈ buildPrevisao s)
    (dA dB : Int) (hda : a.diasFalt = some dA) (hdb : b.diasFalt = some dB)
    (hka : distCalmB a.kmFalt = true) (hkb : distCalmB b.kmFalt = true)
    (hlt : dA < dB) :
    urgency b.status ≤ urgency a.status := by
  have hsa : a.status = classify a.diasFalt a.kmFalt := by
    rcases mem_rawRows.mp (mem_buildPrevisao.mp ha) with ⟨p, hp, di, hdi, rfl⟩
    rfl
  have hsb : b.status = classify b.diasFalt b.kmFalt := by
    rcases mem_rawRows.mp (mem_buildPrevisao.mp hb) with ⟨p, hp, di, hdi, rfl⟩
    rfl
  rw [hsa, hda, classify_days dA _ hka, hsb, hdb, classify_days dB _ hkb]
  split_ifs <;> first | omega | decide

/-- Claim C7, witness: in `exTwo` the overdue row (days remainder −35) is
strictly more urgent than the on-track row (days remainder 365). -/
theorem c7_monotonic_urgency_witness : urgency rowH.status ≤ urgency rowG.status :=
  c7_monotonic_urgency exTwo rowG rowH (by decide) (by decide) (-35) 365
    (by decide) (by decide) (by decide) (by decide) (by decide)

/-- Claim C8: the date and numeric normalisers are total — every input is
mapped to a value, an unparseable date cell yields "no date" (`none`), a
missing or unparseable numeric cell yields the unknown value (`NaN`,
modelled `none`), and no input escapes these clauses (failure is a value,
never an exception). -/
theorem c8_total_normalizers :
    (∀ s : String, parseDateBR s = none → toDate (DateInput.raw s) = none)
      ∧ toDate DateInput.na = none
      ∧ (∀ s : String, parsePyFloat (numTransform s) = none → toNum (NumInput.str s) = none)
      ∧ toNum NumInput.na = none
      ∧ (∀ x : DateInput, toDate x = none ∨ ∃ d, toDate x = some d)
      ∧ (∀ x : NumInput, toNum x = none ∨ ∃ q, toNum x = some q) := by
  refine ⟨fun s h => h, rfl, fun s h => h, rfl, ?_, ?_⟩
  · intro x
    cases h : toDate x with
    | none => exact Or.inl rfl
    | some d => exact Or.inr ⟨d, rfl⟩
  · intro x
    cases h : toNum x with
    | none => exact Or.inl rfl
    | some q => exact Or.inr ⟨q, rfl⟩

/-- Claim C8, witness: the unparseable cell `"abc"` yields "no date" and
"no value" through both normalisers. -/
theorem c8_total_normalizers_witness :
    toDate (DateInput.raw "abc") = none ∧ toNum (NumInput.str "abc") = none :=
  ⟨c8_total_normalizers.1 "abc" (by decide), c8_total_normalizers.2.2.1 "abc" (by decide)⟩

/-- Claim C9: the projection rows are returned ascending by the urgency
key — the minimum of the days and distance remainders with a missing
remainder replaced by `9e9` — and are exactly (a permutation of) the
per-plate rows. -/
theorem c9_sorted_by_urgency_key (s : Snapshot) :
    (buildPrevisao s).Pairwise (fun a b => ordKey a ≤ ordKey b)
      ∧ (buildPrevisao s).Perm (rawRows s) :=
  ⟨sorted_sortRows (rawRows s), perm_sortRows (rawRows s)⟩

/-- Claim C10: every projection row carries a nonempty canonical plate,
and that plate is the canonical form of some source record — records whose
plate is missing, non-string or canonically empty contribute no row. -/
theorem c10_nonempty_plate (s : Snapshot) (r : Row) (hr : r ∈ buildPrevisao s) :
    r.placa ≠ "" ∧ r.placa ∈ sourcePlates s := by
  rcases mem_rawRows.mp (mem_buildPrevisao.mp hr) with ⟨p, hp, di, hdi, rfl⟩
  rcases mem_placas.mp hp with ⟨hsp, hne⟩
  rw [mkRow_placa]
  exact ⟨hne, hsp⟩

/-- Claim C10, witness on the `exOne` row. -/
theorem c10_nonempty_plate_witness :
    rowOne.placa ≠ "" ∧ rowOne.placa ∈ sourcePlates exOne :=
  c10_nonempty_plate exOne rowOne (by decide)
